import Mathlib

/-!
Verification of the MultiDevice plugin core (command dispatch and
data-transformation pipeline).

The development shallowly embeds the relevant Python fragments:
 - `MD_Command_Str._parse_str` / `._parse_tree` / `.get_send_data`
   (string-template payload rendering, src/__init__.py),
 - `MD_Commands.get_send_data` / `.get_shng_data` (registry delegation),
 - `MD_Command.__init__` datatype-converter selection,
 - `MD_Device.send_command`, `._read_cyclic_values`, `.set_runtime_data`,
   `.start` (src/MD_Device.py).

Strings are modelled as `List Char`; Python exceptions as an explicit
`Except PyErr` result; potentially diverging loops (the `while re.match`
loop of `_parse_str`) take explicit fuel and return `Option`, with `none`
denoting non-termination within the given fuel.
-/

/-- Python exception classes relevant to the embedded fragments. -/
inductive PyErr where
  | typeError
  | nameError
  | keyError
  | attributeError
  | valueError
deriving DecidableEq, Repr

/-- Python values occurring in command configuration trees, payloads and
replies. Every constructor models an *instance*; class objects do not occur
as data values. Dict keys are restricted to strings, as in the source's
configuration trees. -/
inductive PyVal where
  | vnone
  | vbool (b : Bool)
  | vint (n : Int)
  | vstr (s : List Char)
  | vlist (xs : List PyVal)
  | vtuple (xs : List PyVal)
  | vdict (kvs : List (List Char × PyVal))

/-- The single-quote character, used by the Python repr of strings. -/
def quoteCh : Char := Char.ofNat 39

/-- Opening brace character (Python dict repr). -/
def lbraceCh : Char := Char.ofNat 123

/-- Closing brace character (Python dict repr). -/
def rbraceCh : Char := Char.ofNat 125

mutual

/-- Model of Python repr for the values above. String reprs always use single
quotes (Python may pick double quotes when the content itself holds a quote;
nothing embedded here depends on that choice). -/
def pyRepr : PyVal → List Char
  | PyVal.vnone => 'N' :: 'o' :: 'n' :: ['e']
  | PyVal.vbool true => 'T' :: 'r' :: 'u' :: ['e']
  | PyVal.vbool false => 'F' :: 'a' :: 'l' :: 's' :: ['e']
  | PyVal.vint n => (toString n).toList
  | PyVal.vstr s => quoteCh :: s ++ [quoteCh]
  | PyVal.vlist xs => '[' :: pyReprList xs ++ [']']
  | PyVal.vtuple [x] => '(' :: pyRepr x ++ ',' :: [')']
  | PyVal.vtuple xs => '(' :: pyReprList xs ++ [')']
  | PyVal.vdict kvs => lbraceCh :: pyReprDict kvs ++ [rbraceCh]

/-- Comma-joined reprs of list elements. -/
def pyReprList : List PyVal → List Char
  | [] => []
  | [x] => pyRepr x
  | x :: y :: rest => pyRepr x ++ ',' :: ' ' :: pyReprList (y :: rest)

/-- Comma-joined reprs of dict entries (quoted key, colon, value repr). -/
def pyReprDict : List (List Char × PyVal) → List Char
  | [] => []
  | [kv] => (quoteCh :: kv.1 ++ [quoteCh]) ++ ':' :: ' ' :: pyRepr kv.2
  | kv :: kv2 :: rest =>
      ((quoteCh :: kv.1 ++ [quoteCh]) ++ ':' :: ' ' :: pyRepr kv.2)
        ++ ',' :: ' ' :: pyReprDict (kv2 :: rest)

end

/-- Model of Python str() on the values above: a string maps to itself, any
other value to its repr. -/
def pyStr : PyVal → List Char
  | PyVal.vstr s => s
  | v => pyRepr v

/-- Python truthiness for the modelled values. -/
def pyTruthy : PyVal → Bool
  | PyVal.vnone => false
  | PyVal.vbool b => b
  | PyVal.vint n => !(n == 0)
  | PyVal.vstr s => !s.isEmpty
  | PyVal.vlist xs => !xs.isEmpty
  | PyVal.vtuple xs => !xs.isEmpty
  | PyVal.vdict kvs => !kvs.isEmpty

/-- The plugin-configuration mapping (`self._plugin_params`), keyed by
parameter name. -/
abbrev PluginParams := List (List Char × PyVal)

/-- Model of `self._plugin_params.get(key, '')` as used by the `repl_func`
replacement callback inside `_parse_str`. -/
def paramsGet (pp : PluginParams) (k : List Char) : PyVal :=
  match pp.lookup k with
  | some v => v
  | none => PyVal.vstr []

/-- Worker for `strReplace`: scans the character list; while the skip counter
is positive it discards characters already covered by an earlier match. At
skip 0 it tests for the pattern and, on a match, emits the replacement and
enters skip mode for the rest of the matched pattern. This models Python
str.replace: all non-overlapping occurrences, leftmost first, replacements
not rescanned. -/
def strReplaceAux (pat rep : List Char) : List Char → Nat → List Char
  | [], _ => []
  | _ :: rest, Nat.succ k => strReplaceAux pat rep rest k
  | c :: rest, 0 =>
    if pat.isPrefixOf (c :: rest) && !pat.isEmpty then
      rep ++ strReplaceAux pat rep rest (pat.length - 1)
    else
      c :: strReplaceAux pat rep rest 0

/-- Model of Python str.replace for a non-empty pattern. -/
def strReplace (pat rep s : List Char) : List Char :=
  strReplaceAux pat rep s 0

/-- Whether tok occurs as a contiguous substring of s. -/
def containsTok (tok : List Char) : List Char → Bool
  | [] => tok.isEmpty
  | c :: rest => tok.isPrefixOf (c :: rest) || containsTok tok rest

/-- Attempt to match the regex fragment of `_parse_str` at the head of the
list: a dollar sign, P, a colon, a non-empty maximal run of non-colon
characters (group 2, the attribute name) and a closing colon. On success,
return the attribute name and the remainder after the closing colon. -/
def matchPTokenAt (s : List Char) : Option (List Char × List Char) :=
  match s with
  | a :: b :: c :: rest =>
    if a = '$' && b = 'P' && c = ':' then
      let attr := rest.takeWhile (fun ch => ch != ':')
      match rest.dropWhile (fun ch => ch != ':') with
      | d :: rest2 => if d = ':' && !attr.isEmpty then some (attr, rest2) else none
      | [] => none
    else none
  | _ => none

/-- Worker for `subPTokens`, with the same skip-counter scheme as
`strReplaceAux`: models one `re.sub` pass replacing every non-overlapping
token occurrence, leftmost first, with
str(plugin_params.get(attr, '')) per the `repl_func` callback. A match
occupies the current character plus attr.length + 3 following characters. -/
def subPTokensAux (pp : PluginParams) : List Char → Nat → List Char
  | [], _ => []
  | _ :: rest, Nat.succ k => subPTokensAux pp rest k
  | c :: rest, 0 =>
    match matchPTokenAt (c :: rest) with
    | some (attr, _) =>
        pyStr (paramsGet pp attr) ++ subPTokensAux pp rest (attr.length + 3)
    | none => c :: subPTokensAux pp rest 0

/-- One full `re.sub` pass of `_parse_str`'s while-loop body. -/
def subPTokens (pp : PluginParams) (s : List Char) : List Char :=
  subPTokensAux pp s 0

/-- The while-loop condition of `_parse_str`:
re.match of dot-star, the token group, dot-star. re.match anchors at the
start and the dot does not cross a newline, so the condition holds exactly
when a token occurrence starts before any newline character. -/
def hasPMatch : List Char → Bool
  | [] => false
  | c :: rest => (matchPTokenAt (c :: rest)).isSome || (c != '\n' && hasPMatch rest)

/-- The while-loop of `_parse_str`, with explicit fuel; `none` models
non-termination within the given fuel (the source loop can diverge when a
substitution value reintroduces its own token). -/
def parsePLoop (pp : PluginParams) : Nat → List Char → Option (List Char)
  | 0, s => if hasPMatch s then none else some s
  | Nat.succ n, s => if hasPMatch s then parsePLoop pp n (subPTokens pp s) else some s

/-- The opcode placeholder token. -/
def tokC : List Char := '$' :: ['C']

/-- The value placeholder token. -/
def tokV : List Char := '$' :: ['V']

/-- `MD_Command_Str._parse_str`: replace the opcode token by the opcode,
run the configuration-token substitution loop until no match remains, then
(only when a data value is supplied) replace the value token by str(data). -/
def MD_Command_Str.parse_str (pp : PluginParams) (opcode : List Char) (fuel : Nat)
    (string : List Char) (data : Option PyVal) : Option (List Char) :=
  match parsePLoop pp fuel (strReplace tokC opcode string) with
  | none => none
  | some s2 =>
    match data with
    | none => some s2
    | some v => some (strReplace tokV (pyStr v) s2)

/-- Class objects that the dispatch chain of `_parse_tree` tests against. -/
inductive PyClass where
  | cstr
  | clist
  | ctuple
  | cdict

/-- Python issubclass raises TypeError whenever its first argument is not a
class object. Every `PyVal` constructor models an instance, and `_parse_tree`
receives configuration data values, never class objects, so the check raises
for every node that reaches it. -/
def py_issubclass (_node : PyVal) (_cls : PyClass) : Except PyErr Bool :=
  Except.error PyErr.typeError

mutual

/-- `MD_Command_Str._parse_tree`: dispatches on issubclass(node, str),
issubclass(node, list), issubclass(node, tuple), issubclass(node, dict) in
that order, recursing into containers, parsing strings with `_parse_str` and
passing other nodes through unchanged. Because `py_issubclass` raises for
every instance argument, the branches past the first check are unreachable
for data values; they are nevertheless translated faithfully to the source's
intent (for tuples the source actually builds a generator expression, which
is modelled as a tuple of the parsed elements). -/
def MD_Command_Str.parse_tree (pp : PluginParams) (opcode : List Char) (fuel : Nat)
    (node : PyVal) (data : Option PyVal) : Option (Except PyErr PyVal) :=
  match py_issubclass node PyClass.cstr with
  | Except.error e => some (Except.error e)
  | Except.ok true =>
    match node with
    | PyVal.vstr s =>
      match MD_Command_Str.parse_str pp opcode fuel s data with
      | none => none
      | some r => some (Except.ok (PyVal.vstr r))
    | _ => some (Except.error PyErr.typeError)
  | Except.ok false =>
    match py_issubclass node PyClass.clist with
    | Except.error e => some (Except.error e)
    | Except.ok true =>
      match node with
      | PyVal.vlist xs =>
        match MD_Command_Str.parse_tree_seq pp opcode fuel xs data with
        | none => none
        | some (Except.error e) => some (Except.error e)
        | some (Except.ok ys) => some (Except.ok (PyVal.vlist ys))
      | _ => some (Except.error PyErr.typeError)
    | Except.ok false =>
      match py_issubclass node PyClass.ctuple with
      | Except.error e => some (Except.error e)
      | Except.ok true =>
        match node with
        | PyVal.vtuple xs =>
          match MD_Command_Str.parse_tree_seq pp opcode fuel xs data with
          | none => none
          | some (Except.error e) => some (Except.error e)
          | some (Except.ok ys) => some (Except.ok (PyVal.vtuple ys))
        | _ => some (Except.error PyErr.typeError)
      | Except.ok false =>
        match py_issubclass node PyClass.cdict with
        | Except.error e => some (Except.error e)
        | Except.ok true =>
          match node with
          | PyVal.vdict kvs =>
            match MD_Command_Str.parse_tree_map pp opcode fuel kvs data with
            | none => none
            | some (Except.error e) => some (Except.error e)
            | some (Except.ok kvs2) => some (Except.ok (PyVal.vdict kvs2))
          | _ => some (Except.error PyErr.typeError)
        | Except.ok false => some (Except.ok node)

/-- Element-wise `_parse_tree` over a sequence, propagating the first raised
exception, as the source's comprehension would. -/
def MD_Command_Str.parse_tree_seq (pp : PluginParams) (opcode : List Char) (fuel : Nat)
    (xs : List PyVal) (data : Option PyVal) : Option (Except PyErr (List PyVal)) :=
  match xs with
  | [] => some (Except.ok [])
  | x :: rest =>
    match MD_Command_Str.parse_tree pp opcode fuel x data with
    | none => none
    | some (Except.error e) => some (Except.error e)
    | some (Except.ok y) =>
      match MD_Command_Str.parse_tree_seq pp opcode fuel rest data with
      | none => none
      | some (Except.error e) => some (Except.error e)
      | some (Except.ok ys) => some (Except.ok (y :: ys))

/-- Entry-wise `_parse_tree` over a mapping's values, keys kept unchanged. -/
def MD_Command_Str.parse_tree_map (pp : PluginParams) (opcode : List Char) (fuel : Nat)
    (kvs : List (List Char × PyVal)) (data : Option PyVal) :
    Option (Except PyErr (List (List Char × PyVal))) :=
  match kvs with
  | [] => some (Except.ok [])
  | (k, v) :: rest =>
    match MD_Command_Str.parse_tree pp opcode fuel v data with
    | none => none
    | some (Except.error e) => some (Except.error e)
    | some (Except.ok v2) =>
      match MD_Command_Str.parse_tree_map pp opcode fuel rest data with
      | none => none
      | some (Except.error e) => some (Except.error e)
      | some (Except.ok kvs2) => some (Except.ok ((k, v2) :: kvs2))

end

/-- Truthiness of the class attributes read_cmd / write_cmd, which are
either None (the class default) or a string: None and the empty string are
falsy. -/
def truthyStr : Option (List Char) → Bool
  | none => false
  | some s => !s.isEmpty

/-- The state of an `MD_Command_Str` object after construction: opcode and
the optional read/write templates and additional-parameters tree, all read
from the command configuration, plus the selected Datatype Converter's
decode direction (`_DT.get_shng_data`). The converter implementation lives
in the datatypes module, which is not among the sources; it is kept
abstract as a function field. -/
structure MD_Command_Str where
  opcode : List Char
  read_cmd : Option (List Char)
  write_cmd : Option (List Char)
  params : List (List Char × PyVal)
  dt_get_shng : PyVal → Except PyErr PyVal

/-- A rendered send descriptor: the payload entry plus the rendered
additional-parameter entries, keyed as in the source's data_dict. -/
structure DataDict where
  payload : PyVal
  extra : List (List Char × PyVal)

/-- The params-rendering loop at the end of `MD_Command_Str.get_send_data`:
for every configured additional-parameter key, store the `_parse_tree`
rendering of its value; a raised exception propagates out of the loop. -/
def MD_Command_Str.renderParams (pp : PluginParams) (opcode : List Char) (fuel : Nat)
    (ps : List (List Char × PyVal)) (data : Option PyVal) :
    Option (Except PyErr (List (List Char × PyVal))) :=
  match ps with
  | [] => some (Except.ok [])
  | (k, v) :: rest =>
    match MD_Command_Str.parse_tree pp opcode fuel v data with
    | none => none
    | some (Except.error e) => some (Except.error e)
    | some (Except.ok v2) =>
      match MD_Command_Str.renderParams pp opcode fuel rest data with
      | none => none
      | some (Except.error e) => some (Except.error e)
      | some (Except.ok rest2) => some (Except.ok ((k, v2) :: rest2))

/-- `MD_Command_Str.get_send_data`: with no data value, parse the read
template if one is set (truthy), else use the opcode verbatim; with a data
value, parse the write template if one is set, else use the opcode verbatim.
Then render the additional-parameters tree entry-wise. -/
def MD_Command_Str.get_send_data (c : MD_Command_Str) (pp : PluginParams) (fuel : Nat)
    (data : Option PyVal) : Option (Except PyErr DataDict) :=
  let cmdStrOpt : Option (List Char) :=
    match data with
    | none =>
      if truthyStr c.read_cmd then
        MD_Command_Str.parse_str pp c.opcode fuel (c.read_cmd.getD []) none
      else some c.opcode
    | some _ =>
      if truthyStr c.write_cmd then
        MD_Command_Str.parse_str pp c.opcode fuel (c.write_cmd.getD []) data
      else some c.opcode
  match cmdStrOpt with
  | none => none
  | some cmdStr =>
    match MD_Command_Str.renderParams pp c.opcode fuel c.params data with
    | none => none
    | some (Except.error e) => some (Except.error e)
    | some (Except.ok extra) => some (Except.ok (DataDict.mk (PyVal.vstr cmdStr) extra))

/-- `MD_Command.get_shng_data` as inherited by `MD_Command_Str`: apply the
selected Datatype Converter's decode. -/
def MD_Command_Str.get_shng_data (c : MD_Command_Str) (data : PyVal) : Except PyErr PyVal :=
  c.dt_get_shng data

/-- `MD_Commands.get_send_data` (the registry delegation): for a registered
command name, delegate to the command object, letting a raised exception
propagate; for an unknown name, return the None sentinel. -/
def MD_Commands.get_send_data (reg : List (String × MD_Command_Str)) (pp : PluginParams)
    (fuel : Nat) (command : String) (data : Option PyVal) :
    Option (Except PyErr (Option DataDict)) :=
  match reg.lookup command with
  | some c =>
    match c.get_send_data pp fuel data with
    | none => none
    | some (Except.error e) => some (Except.error e)
    | some (Except.ok d) => some (Except.ok (some d))
  | none => some (Except.ok none)

/-- `MD_Commands.get_shng_data`: delegate reply decoding to the named
command, or return the None sentinel for unknown names. -/
def MD_Commands.get_shng_data (reg : List (String × MD_Command_Str)) (command : String)
    (data : PyVal) : Except PyErr (Option PyVal) :=
  match reg.lookup command with
  | some c =>
    match c.get_shng_data data with
    | Except.error e => Except.error e
    | Except.ok v => Except.ok (some v)
  | none => Except.ok none

/-- The Datatype Converter selection fragment of `MD_Command.__init__`
(src/__init__.py lines 272-277): getattr(DT, 'DT_' + dev_type) raises
AttributeError for an unresolvable tag; the installed handler first executes
logger.warning on an f-string that interpolates the bare name dev_type,
which is not bound in __init__ (only self.dev_type is), so evaluating the
f-string raises NameError before the raw fallback assignment is reached.
`avail` holds the attribute names of the datatypes module, which is not
among the sources; only resolvability of the looked-up name matters here. -/
def MD_Command.initDT (avail : List String) (dev_type : String) : Except PyErr String :=
  if avail.contains ("DT_" ++ dev_type) then Except.ok ("DT_" ++ dev_type)
  else Except.error PyErr.nameError

/-- The transport as observed by `MD_Device.send_command`: its current
connected flag, the connected flag that a call to open() would establish,
and the effect of send(), which may raise. -/
structure ConnModel where
  connected : Bool
  connectedAfterOpen : Bool
  send : DataDict → Except PyErr PyVal

/-- How one `send_command` call ends: a returned boolean, or an exception
escaping the call. -/
inductive SendRet where
  | ret (b : Bool)
  | raised (e : PyErr)
deriving DecidableEq, Repr

/-- The observable outcome of one `send_command` call: how it ended, whether
the transport's send() was invoked, and whether the data-received callback
was invoked. -/
structure SendEffects where
  retval : SendRet
  transportCalled : Bool
  callbackCalled : Bool
deriving DecidableEq, Repr

/-- The payload guard of `send_command`:
data_dict['payload'] is None or data_dict['payload'] == ''. -/
def payloadMissing : PyVal → Bool
  | PyVal.vnone => true
  | PyVal.vstr s => s.isEmpty
  | _ => false

/-- `MD_Device.send_command` (src/MD_Device.py lines 155-211). Guard chain:
not alive, connection object missing, connection not connectable — each
returns False without touching the transport. The registry call is wrapped
in try/except (a raised conversion error returns False). When the registry
returns its None sentinel for an unknown command, the subsequent subscript
data_dict['payload'] sits outside that try block and raises TypeError on
None, which escapes the call. A non-empty payload is passed through
`_transform_send_data` (the identity by default) and sent; an exception from
send() is caught and returns False. On a truthy result the reply is decoded
(a decode error is logged and the value discarded) and the callback invoked
when registered; the call then returns True. -/
def MD_Device.send_command (alive : Bool) (conn : Option ConnModel)
    (reg : List (String × MD_Command_Str)) (pp : PluginParams) (fuel : Nat)
    (callbackSet : Bool) (command : String) (value : Option PyVal) :
    Option SendEffects :=
  if !alive then some (SendEffects.mk (SendRet.ret false) false false)
  else
    match conn with
    | none => some (SendEffects.mk (SendRet.ret false) false false)
    | some c0 =>
      let c1 := if c0.connected then c0
                else ConnModel.mk c0.connectedAfterOpen c0.connectedAfterOpen c0.send
      if !c1.connected then some (SendEffects.mk (SendRet.ret false) false false)
      else
        match MD_Commands.get_send_data reg pp fuel command value with
        | none => none
        | some (Except.error _) => some (SendEffects.mk (SendRet.ret false) false false)
        | some (Except.ok none) =>
          some (SendEffects.mk (SendRet.raised PyErr.typeError) false false)
        | some (Except.ok (some dd)) =>
          if payloadMissing dd.payload then some (SendEffects.mk (SendRet.ret false) false false)
          else
            match c1.send dd with
            | Except.error _ => some (SendEffects.mk (SendRet.ret false) true false)
            | Except.ok result =>
              if pyTruthy result then
                match MD_Commands.get_shng_data reg command result with
                | Except.error _ => some (SendEffects.mk (SendRet.ret true) true false)
                | Except.ok _ =>
                  if callbackSet then some (SendEffects.mk (SendRet.ret true) true true)
                  else some (SendEffects.mk (SendRet.ret true) true false)
              else some (SendEffects.mk (SendRet.ret true) true false)

/-- One entry of `self._commands_cyclic`: the configured cycle period and
the next due timestamp. Timestamps are modelled as rationals (`time.time()`
yields a real-valued clock reading; no claim depends on float rounding). -/
structure CycEntry where
  cycle : ℚ
  next : ℚ
deriving DecidableEq, Repr

/-- What one firing of `_read_cyclic_values` leaves behind: the cyclic
command map, the `_cyclic_update_active` flag, and the names handed to
`send_command`, in order. -/
structure CycOutcome where
  cmds : List (String × CycEntry)
  active : Bool
  sent : List String
deriving DecidableEq, Repr

/-- The due-command collection pass of `_read_cyclic_values`: every command
whose next timestamp is at or before the captured current time, in the
map's insertion order. -/
def dueList (m : List (String × CycEntry)) (now : ℚ) : List String :=
  (m.filter fun p => decide (p.2.next ≤ now)).map Prod.fst

/-- The per-command map update of `_read_cyclic_values`:
set the named command's next timestamp to the captured current time plus its
own cycle period. -/
def updateNext (m : List (String × CycEntry)) (cmd : String) (now : ℚ) :
    List (String × CycEntry) :=
  m.map fun p => if p.1 = cmd then (p.1, CycEntry.mk p.2.cycle (now + p.2.cycle)) else p

/-- The todo loop of `_read_cyclic_values`. `aliveAt i` and `connAt i` are
the values of `self.alive` and `self._connection.connected` observed at loop
step `i` (both can be changed concurrently by stop() or a disconnect).
Before each send the loop re-checks both and, if either fails, returns at
once — without clearing the active flag. On normal completion the flag is
cleared. -/
def cyclicLoop (aliveAt connAt : Nat → Bool) (now : ℚ) :
    List String → Nat → List (String × CycEntry) → List String → CycOutcome
  | [], _, m, sent => CycOutcome.mk m false sent
  | cmd :: rest, i, m, sent =>
    if !aliveAt i then CycOutcome.mk m true sent
    else if !connAt i then CycOutcome.mk m true sent
    else cyclicLoop aliveAt connAt now rest (i + 1) (updateNext m cmd now) (sent ++ [cmd])

/-- `MD_Device._read_cyclic_values` (src/MD_Device.py lines 430-470): if the
previous run is still marked active, log and return with nothing changed;
otherwise set the flag, capture the current time, snapshot the due commands
and run the todo loop. -/
def MD_Device.read_cyclic_values (aliveAt connAt : Nat → Bool) (now : ℚ)
    (active : Bool) (m : List (String × CycEntry)) : CycOutcome :=
  if active then CycOutcome.mk m active []
  else cyclicLoop aliveAt connAt now (dueList m now) 0 m []

/-- The device runtime fields touched by `set_runtime_data` and `start`. -/
structure DevRuntime where
  commands_read : List String
  commands_cyclic : List (String × CycEntry)
  commands_initial : List String
  data_received_callback : Option Unit
  runtime_data_set : Bool
  alive : Bool
  initial_values_read : Bool
deriving DecidableEq, Repr

/-- The keyword-argument dict handed to `set_runtime_data`: for each of the
four recognized keys, whether the key is present and, if so, its value (the
callback value may itself be None). -/
structure RTKwargs where
  read_commands : Option (List String)
  cycle_commands : Option (List (String × CycEntry))
  initial_commands : Option (List String)
  callback : Option (Option Unit)

/-- `MD_Device.set_runtime_data` (src/MD_Device.py lines 268-279): the four
dict lookups are attempted in order inside one try block, each assigning its
field before the next lookup; the first missing key raises KeyError, which
the except arm catches after the earlier assignments have already taken
effect, and `_runtime_data_set` is only set once all four succeeded. -/
def MD_Device.set_runtime_data (st : DevRuntime) (kw : RTKwargs) : DevRuntime :=
  match kw.read_commands with
  | none => st
  | some rc =>
    let st1 := DevRuntime.mk rc st.commands_cyclic st.commands_initial
      st.data_received_callback st.runtime_data_set st.alive st.initial_values_read
    match kw.cycle_commands with
    | none => st1
    | some cc =>
      let st2 := DevRuntime.mk st1.commands_read cc st1.commands_initial
        st1.data_received_callback st1.runtime_data_set st1.alive st1.initial_values_read
      match kw.initial_commands with
      | none => st2
      | some ic =>
        let st3 := DevRuntime.mk st2.commands_read st2.commands_cyclic ic
          st2.data_received_callback st2.runtime_data_set st2.alive st2.initial_values_read
        match kw.callback with
        | none => st3
        | some cb =>
          DevRuntime.mk st3.commands_read st3.commands_cyclic st3.commands_initial
            cb true st3.alive st3.initial_values_read

/-- `MD_Device.start` (src/MD_Device.py lines 120-135): a no-op when already
alive; refuses (device stays not alive) when runtime data was never set;
otherwise marks the device alive, opens the connection and, if it is then
connected, performs the initial-read pass (sending the configured initial
commands once, guarded by the `_initial_values_read` latch). The cyclic
scheduler registration is an external-scheduler effect outside this model.
Returns the device state, the connection state and the commands sent. -/
def MD_Device.start (st : DevRuntime) (conn : ConnModel) :
    DevRuntime × ConnModel × List String :=
  if st.alive then (st, conn, [])
  else if !st.runtime_data_set then (st, conn, [])
  else
    let st1 := DevRuntime.mk st.commands_read st.commands_cyclic st.commands_initial
      st.data_received_callback st.runtime_data_set true st.initial_values_read
    let conn1 := ConnModel.mk conn.connectedAfterOpen conn.connectedAfterOpen conn.send
    if conn1.connected then
      if !st1.commands_initial.isEmpty && !st1.initial_values_read then
        (DevRuntime.mk st1.commands_read st1.commands_cyclic st1.commands_initial
          st1.data_received_callback st1.runtime_data_set st1.alive true,
         conn1, st1.commands_initial)
      else (st1, conn1, [])
    else (st1, conn1, [])

/-- A command configured exactly as in the specification's scenario: read
template, opcode, no write template, no additional parameters, raw
passthrough decode. -/
def demoCmd : MD_Command_Str :=
  MD_Command_Str.mk ("http://host/set".toList) (some ("$C/$V".toList)) none [] Except.ok

/-- A registry holding the single command name power. -/
def demoReg : List (String × MD_Command_Str) := [("power", demoCmd)]

/-- A connected transport whose send succeeds with None. -/
def demoConn : ConnModel := ConnModel.mk true true (fun _ => Except.ok PyVal.vnone)

/-- A connected transport whose send raises. -/
def failConn : ConnModel := ConnModel.mk true true (fun _ => Except.error PyErr.valueError)

/-- C1: For a command name absent from the registry, the registry delegation
returns its None sentinel; `send_command` on an alive, connected device then
subscripts that None outside any try block, so a TypeError escapes the call
instead of the logged False return the claim describes; the transport is
never touched and the callback never invoked. -/
theorem C1_unknown_command_raises :
    MD_Commands.get_send_data demoReg [] 8 "unknownCmd" none = some (Except.ok none)
    ∧ MD_Device.send_command true (some demoConn) demoReg [] 8 true "unknownCmd" none
        = some (SendEffects.mk (SendRet.raised PyErr.typeError) false false) :=
  ⟨rfl, rfl⟩

/-- C2 counterexample: with read template, opcode as configured and no write
template, building the payload for value 42 yields the bare opcode string,
not the claimed rendering of the read template. -/
theorem C2_counterexample :
    demoCmd.get_send_data [] 8 (some (PyVal.vint 42))
        = some (Except.ok (DataDict.mk (PyVal.vstr ("http://host/set".toList)) []))
    ∧ ("http://host/set".toList ≠ "http://host/set/42".toList) :=
  ⟨rfl, by decide⟩

/-- C2 (amended): with a value present and no write template configured, the
payload-build operation falls back to the opcode — for the scenario's
command it yields the payload string http://host/set for every supplied
value, and the read template is not used. -/
theorem C2_amended_value_uses_opcode (v : PyVal) (pp : PluginParams) (fuel : Nat) :
    demoCmd.get_send_data pp fuel (some v)
      = some (Except.ok (DataDict.mk (PyVal.vstr ("http://host/set".toList)) [])) :=
  rfl

/-- C4: a resolvable converter tag is instantiated, but an unresolvable tag
does not reach the raw fallback: the warning f-string in the AttributeError
handler references the unbound name dev_type, so construction raises
NameError — contradicting the claimed recoverable fallback-with-warning. -/
theorem C4_unresolvable_tag_raises :
    MD_Command.initDT ["DT_raw"] "raw" = Except.ok "DT_raw"
    ∧ MD_Command.initDT ["DT_raw"] "foo" = Except.error PyErr.nameError :=
  ⟨rfl, rfl⟩

/-- C5: the additional-parameters renderer dispatches with issubclass on
instance nodes, which raises TypeError for every data value — a string node
is not substituted, a scalar of another type is not passed through, and a
sequence node is not rendered element-wise; each raises instead. -/
theorem C5_parse_tree_raises_on_instances :
    MD_Command_Str.parse_tree [] [] 8 (PyVal.vstr ("abc".toList)) none
        = some (Except.error PyErr.typeError)
    ∧ MD_Command_Str.parse_tree [] [] 8 (PyVal.vint 7) none
        = some (Except.error PyErr.typeError)
    ∧ MD_Command_Str.parse_tree [] [] 8 (PyVal.vlist [PyVal.vint 1]) none
        = some (Except.error PyErr.typeError) := by
  refine ⟨?_, ?_, ?_⟩ <;> simp [MD_Command_Str.parse_tree, py_issubclass]

/-- C6: a firing that starts while the active flag is set sends nothing,
leaves every nextDue timestamp (indeed the whole cyclic command map) and the
flag itself unchanged. -/
theorem C6_overrun_firing_skipped (aliveAt connAt : Nat → Bool) (now : ℚ)
    (m : List (String × CycEntry)) :
    MD_Device.read_cyclic_values aliveAt connAt now true m = CycOutcome.mk m true [] := by
  simp [MD_Device.read_cyclic_values]

/-- C8: on an alive device with a connected transport, when payload
construction succeeds with a non-empty payload and the transport's send
raises, `send_command` catches the exception and returns False; no exception
crosses the call boundary. -/
theorem C8_transport_exception_caught
    (c0 : ConnModel) (reg : List (String × MD_Command_Str)) (pp : PluginParams)
    (fuel : Nat) (cb : Bool) (command : String) (value : Option PyVal)
    (dd : DataDict) (e : PyErr)
    (hconn : c0.connected = true)
    (hdd : MD_Commands.get_send_data reg pp fuel command value = some (Except.ok (some dd)))
    (hpay : payloadMissing dd.payload = false)
    (hsend : c0.send dd = Except.error e) :
    MD_Device.send_command true (some c0) reg pp fuel cb command value
      = some (SendEffects.mk (SendRet.ret false) true false) := by
  simp [MD_Device.send_command, hconn, hdd, hpay, hsend]

/-- C8 witness: the theorem applied to a concrete raising transport and the
demo registry. -/
theorem C8_witness :
    MD_Device.send_command true (some failConn) demoReg [] 8 true "power" (some (PyVal.vint 42))
      = some (SendEffects.mk (SendRet.ret false) true false) :=
  C8_transport_exception_caught failConn demoReg [] 8 true "power" (some (PyVal.vint 42))
    (DataDict.mk (PyVal.vstr ("http://host/set".toList)) []) PyErr.valueError
    rfl rfl rfl rfl

/-- C10: when the runtime-data dict holds read, cyclic and initial commands
but no callback key, the three command fields are already overwritten when
the KeyError on the callback lookup is caught, the callback field and the
runtime-data-set flag are left as they were, and a subsequent start() still
refuses to mark the device alive. -/
theorem C10_set_runtime_data_not_atomic
    (st : DevRuntime) (conn : ConnModel) (rc : List String)
    (cc : List (String × CycEntry)) (ic : List String)
    (hrds : st.runtime_data_set = false) (halive : st.alive = false) :
    MD_Device.set_runtime_data st (RTKwargs.mk (some rc) (some cc) (some ic) none)
      = DevRuntime.mk rc cc ic st.data_received_callback false st.alive st.initial_values_read
    ∧ (MD_Device.start
          (MD_Device.set_runtime_data st (RTKwargs.mk (some rc) (some cc) (some ic) none))
          conn).1.alive = false := by
  constructor
  · simp [MD_Device.set_runtime_data, hrds]
  · simp [MD_Device.set_runtime_data, MD_Device.start, hrds, halive]

/-- The cumulative map update performed by the todo loop over a list of
command names. -/
def foldUpdate (now : ℚ) (ns : List String) (m : List (String × CycEntry)) :
    List (String × CycEntry) :=
  ns.foldl (fun mm cmd => updateNext mm cmd now) m

/-- The effect of the todo loop on a single map entry, as a fold over the
processed command names. -/
def applyNames (now : ℚ) (ns : List String) (p : String × CycEntry) : String × CycEntry :=
  ns.foldl
    (fun q cmd => if q.1 = cmd then (q.1, CycEntry.mk q.2.cycle (now + q.2.cycle)) else q) p

/-- When the device stays alive and connected through every step, the todo
loop processes the whole list: it updates each command's entry, clears the
active flag and appends the whole todo list to the send trace, in order. -/
lemma cyclicLoop_all_ok (aliveAt connAt : Nat → Bool) (now : ℚ) :
    ∀ (todo : List String) (i0 : Nat) (m : List (String × CycEntry)) (sent : List String),
    (∀ j, j < todo.length → aliveAt (i0 + j) = true ∧ connAt (i0 + j) = true) →
    cyclicLoop aliveAt connAt now todo i0 m sent
      = CycOutcome.mk (foldUpdate now todo m) false (sent ++ todo) := by
  intro todo
  induction todo with
  | nil => intro i0 m sent _; simp [cyclicLoop, foldUpdate]
  | cons cmd rest ih =>
    intro i0 m sent hok
    have hhead := hok 0 (by simp)
    simp only [Nat.add_zero] at hhead
    have hok2 : ∀ j, j < rest.length →
        aliveAt (i0 + 1 + j) = true ∧ connAt (i0 + 1 + j) = true := by
      intro j hj
      have := hok (j + 1) (by simpa using Nat.succ_lt_succ hj)
      simpa [Nat.add_assoc, Nat.add_comm 1 j] using this
    have step : cyclicLoop aliveAt connAt now (cmd :: rest) i0 m sent
        = cyclicLoop aliveAt connAt now rest (i0 + 1) (updateNext m cmd now) (sent ++ [cmd]) := by
      simp [cyclicLoop, hhead.1, hhead.2]
    rw [step, ih (i0 + 1) (updateNext m cmd now) (sent ++ [cmd]) hok2]
    simp [foldUpdate, List.append_assoc]

/-- When the alive or connected check fails at step k, with both checks
passing at every earlier step, the todo loop stops at k: only the first k
commands are sent and updated and the active flag is left set. -/
lemma cyclicLoop_abort (aliveAt connAt : Nat → Bool) (now : ℚ) :
    ∀ (todo : List String) (k i0 : Nat) (m : List (String × CycEntry)) (sent : List String),
    k < todo.length →
    (∀ j, j < k → aliveAt (i0 + j) = true ∧ connAt (i0 + j) = true) →
    (aliveAt (i0 + k) = false ∨ connAt (i0 + k) = false) →
    cyclicLoop aliveAt connAt now todo i0 m sent
      = CycOutcome.mk (foldUpdate now (todo.take k) m) true (sent ++ todo.take k) := by
  intro todo
  induction todo with
  | nil => intro k i0 m sent hk; exact absurd hk (by simp)
  | cons cmd rest ih =>
    intro k i0 m sent hk hok hfail
    cases k with
    | zero =>
      simp only [Nat.add_zero] at hfail
      rcases hfail with hf | hf
      · simp [cyclicLoop, hf, foldUpdate]
      · cases haa : aliveAt i0 with
        | false => simp [cyclicLoop, haa, foldUpdate]
        | true => simp [cyclicLoop, haa, hf, foldUpdate]
    | succ km =>
      have hhead := hok 0 (Nat.succ_pos km)
      simp only [Nat.add_zero] at hhead
      have step : cyclicLoop aliveAt connAt now (cmd :: rest) i0 m sent
          = cyclicLoop aliveAt connAt now rest (i0 + 1) (updateNext m cmd now) (sent ++ [cmd]) := by
        simp [cyclicLoop, hhead.1, hhead.2]
      have hk2 : km < rest.length := by simpa using Nat.lt_of_succ_lt_succ hk
      have hok2 : ∀ j, j < km → aliveAt (i0 + 1 + j) = true ∧ connAt (i0 + 1 + j) = true := by
        intro j hj
        have := hok (j + 1) (Nat.succ_lt_succ hj)
        simpa [Nat.add_assoc, Nat.add_comm 1 j] using this
      have hfail2 : aliveAt (i0 + 1 + km) = false ∨ connAt (i0 + 1 + km) = false := by
        simpa [Nat.add_assoc, Nat.add_comm 1 km] using hfail
      rw [step, ih km (i0 + 1) (updateNext m cmd now) (sent ++ [cmd]) hk2 hok2 hfail2]
      simp [foldUpdate, List.append_assoc]

/-- C3: when, during the todo loop of a firing that started with a clear
flag, the alive or connected check fails at some step (all earlier steps
passing), the firing returns at once: only the due commands before the
failing step were sent, the active flag is left true, and any later firing
that observes the resulting flag is skipped entirely. -/
theorem C3_abort_keeps_lock (aliveAt connAt : Nat → Bool) (now : ℚ)
    (m : List (String × CycEntry)) (i : Nat)
    (hi : i < (dueList m now).length)
    (hok : ∀ j, j < i → aliveAt j = true ∧ connAt j = true)
    (hfail : aliveAt i = false ∨ connAt i = false) :
    (MD_Device.read_cyclic_values aliveAt connAt now false m).active = true
    ∧ (MD_Device.read_cyclic_values aliveAt connAt now false m).sent = (dueList m now).take i
    ∧ ∀ (a2 c2 : Nat → Bool) (now2 : ℚ) (m2 : List (String × CycEntry)),
        MD_Device.read_cyclic_values a2 c2 now2
            (MD_Device.read_cyclic_values aliveAt connAt now false m).active m2
          = CycOutcome.mk m2 true [] := by
  have hok0 : ∀ j, j < i → aliveAt (0 + j) = true ∧ connAt (0 + j) = true := by
    simpa using hok
  have hfail0 : aliveAt (0 + i) = false ∨ connAt (0 + i) = false := by simpa using hfail
  have e2 : MD_Device.read_cyclic_values aliveAt connAt now false m
      = CycOutcome.mk (foldUpdate now ((dueList m now).take i) m) true
          ((dueList m now).take i) := by
    unfold MD_Device.read_cyclic_values
    rw [cyclicLoop_abort aliveAt connAt now (dueList m now) i 0 m [] hi hok0 hfail0]
    simp
  rw [e2]
  exact ⟨rfl, rfl, fun a2 c2 now2 m2 => by simp [MD_Device.read_cyclic_values]⟩

/-- The cyclic map of the claimed scenario: command A with a 10 second cycle
and command B with a 30 second cycle, both due at time 0. -/
def cycM : List (String × CycEntry) := [("A", CycEntry.mk 10 0), ("B", CycEntry.mk 30 0)]

/-- C3 witness: the theorem applied to a run in which the device goes
non-alive after the first command. -/
theorem C3_witness :
    (MD_Device.read_cyclic_values (fun j => decide (j = 0)) (fun _ => true) 0 false cycM).active
        = true
    ∧ (MD_Device.read_cyclic_values (fun j => decide (j = 0)) (fun _ => true) 0 false cycM).sent
        = ["A"] := by
  have h := C3_abort_keeps_lock (fun j => decide (j = 0)) (fun _ => true) 0 cycM 1
    (by simp [cycM, dueList])
    (fun j hj => by
      have hj0 : j = 0 := Nat.lt_one_iff.1 hj
      subst hj0
      exact ⟨rfl, rfl⟩)
    (Or.inl (by decide))
  refine ⟨h.1, ?_⟩
  rw [h.2.1]
  simp [cycM, dueList]

/-- The fold of per-command updates acts pointwise on the map entries. -/
lemma foldUpdate_eq_map (now : ℚ) :
    ∀ (ns : List String) (m : List (String × CycEntry)),
    foldUpdate now ns m = m.map (applyNames now ns) := by
  intro ns
  induction ns with
  | nil =>
    intro m
    simp only [foldUpdate, List.foldl_nil]
    exact (List.map_id' m).symm
  | cons n ns ih =>
    intro m
    have e : foldUpdate now (n :: ns) m = foldUpdate now ns (updateNext m n now) := rfl
    rw [e, ih (updateNext m n now)]
    simp only [updateNext, List.map_map]
    rfl

/-- An entry whose key is processed by none of the names is unchanged. -/
lemma applyNames_not_mem (now : ℚ) :
    ∀ (ns : List String) (p : String × CycEntry), p.1 ∉ ns → applyNames now ns p = p := by
  intro ns
  induction ns with
  | nil => intro p _; rfl
  | cons n ns ih =>
    intro p hp
    have hn : ¬ p.1 = n := fun h => hp (by simp [h])
    show applyNames now ns
        (if p.1 = n then (p.1, CycEntry.mk p.2.cycle (now + p.2.cycle)) else p) = p
    rw [if_neg hn]
    exact ih p (fun h => hp (List.mem_cons_of_mem _ h))

/-- An entry whose key occurs exactly once in the processed names receives
exactly one update. -/
lemma applyNames_once (now : ℚ) (ns₁ ns₂ : List String) (p : String × CycEntry)
    (h1 : p.1 ∉ ns₁) (h2 : p.1 ∉ ns₂) :
    applyNames now (ns₁ ++ p.1 :: ns₂) p = (p.1, CycEntry.mk p.2.cycle (now + p.2.cycle)) := by
  have e1 : applyNames now (ns₁ ++ p.1 :: ns₂) p
      = applyNames now (p.1 :: ns₂) (applyNames now ns₁ p) := by
    simp [applyNames, List.foldl_append]
  rw [e1, applyNames_not_mem now ns₁ p h1]
  show applyNames now ns₂
      (if p.1 = p.1 then (p.1, CycEntry.mk p.2.cycle (now + p.2.cycle)) else p) = _
  rw [if_pos rfl]
  exact applyNames_not_mem now ns₂ _ h2

/-- A due entry's key is collected into the due list. -/
lemma mem_dueList (m : List (String × CycEntry)) (now : ℚ) (p : String × CycEntry)
    (hp : p ∈ m) (hdue : p.2.next ≤ now) : p.1 ∈ dueList m now := by
  simp only [dueList, List.mem_map, List.mem_filter]
  exact ⟨p, ⟨hp, by simp [hdue]⟩, rfl⟩

/-- With unique keys, a non-due entry's key is not collected. -/
lemma not_mem_dueList (m : List (String × CycEntry)) (now : ℚ) (p : String × CycEntry)
    (hnd : (m.map Prod.fst).Nodup) (hp : p ∈ m) (hnot : ¬ p.2.next ≤ now) :
    p.1 ∉ dueList m now := by
  intro hmem
  simp only [dueList, List.mem_map, List.mem_filter] at hmem
  obtain ⟨q, ⟨hq, hqdue⟩, hqfst⟩ := hmem
  have hqp : q = p := by
    have inj := (List.nodup_map_iff_inj_on (List.Nodup.of_map Prod.fst hnd)).1 hnd
    exact inj q hq p hp hqfst
  subst hqp
  simp at hqdue
  exact hnot hqdue

/-- With unique keys in the map, the collected due list has no duplicate
names. -/
lemma dueList_nodup (m : List (String × CycEntry)) (now : ℚ)
    (hnd : (m.map Prod.fst).Nodup) : (dueList m now).Nodup := by
  have hsub : ((m.filter fun p => decide (p.2.next ≤ now)).map Prod.fst).Sublist
      (m.map Prod.fst) := (List.filter_sublist m).map Prod.fst
  exact hsub.nodup hnd

/-- Pointwise effect of one completed firing on a map entry: a due entry's
next timestamp becomes the capture time plus its own cycle, every other
entry is untouched. -/
lemma applyNames_dueList (m : List (String × CycEntry)) (now : ℚ)
    (hnd : (m.map Prod.fst).Nodup) (p : String × CycEntry) (hp : p ∈ m) :
    applyNames now (dueList m now) p
      = if p.2.next ≤ now then (p.1, CycEntry.mk p.2.cycle (now + p.2.cycle)) else p := by
  by_cases hdue : p.2.next ≤ now
  · rw [if_pos hdue]
    obtain ⟨ns₁, ns₂, hsplit⟩ := List.append_of_mem (mem_dueList m now p hp hdue)
    have hnodup := dueList_nodup m now hnd
    rw [hsplit] at hnodup
    have h2 : p.1 ∉ ns₂ := ((List.nodup_append.1 hnodup).2.1).not_mem
    have h1 : p.1 ∉ ns₁ := fun hin =>
      (List.nodup_append.1 hnodup).2.2 hin (List.mem_cons_self _ _)
    rw [hsplit]
    exact applyNames_once now ns₁ ns₂ p h1 h2
  · rw [if_neg hdue]
    exact applyNames_not_mem now _ p (not_mem_dueList m now p hnd hp hdue)

/-- C7: a firing that starts with a clear flag and stays alive and connected
throughout sends exactly the commands due at its capture time, in the map's
collection order, sets each sent command's next timestamp to the capture
time plus that command's own cycle period (other entries untouched), and
clears the flag. -/
theorem C7_normal_firing_updates (aliveAt connAt : Nat → Bool) (now : ℚ)
    (m : List (String × CycEntry))
    (hnd : (m.map Prod.fst).Nodup)
    (hok : ∀ j, j < (dueList m now).length → aliveAt j = true ∧ connAt j = true) :
    MD_Device.read_cyclic_values aliveAt connAt now false m
      = CycOutcome.mk
          (m.map fun p =>
            if p.2.next ≤ now then (p.1, CycEntry.mk p.2.cycle (now + p.2.cycle)) else p)
          false (dueList m now) := by
  have hok0 : ∀ j, j < (dueList m now).length →
      aliveAt (0 + j) = true ∧ connAt (0 + j) = true := by simpa using hok
  unfold MD_Device.read_cyclic_values
  rw [cyclicLoop_all_ok aliveAt connAt now (dueList m now) 0 m [] hok0,
    foldUpdate_eq_map]
  simp only [List.nil_append, Bool.false_eq_true, if_false]
  congr 1
  exact List.map_congr_left (fun p hp => applyNames_dueList m now hnd p hp)

/-- C7 witness: the theorem applied to the claimed scenario — commands A
(cycle 10) and B (cycle 30) both due at time 0 are both sent, in
registration order, and get next timestamps 10 and 30. -/
theorem C7_witness :
    MD_Device.read_cyclic_values (fun _ => true) (fun _ => true) 0 false cycM
      = CycOutcome.mk [("A", CycEntry.mk 10 10), ("B", CycEntry.mk 30 30)] false ["A", "B"] := by
  have h := C7_normal_firing_updates (fun _ => true) (fun _ => true) 0 cycM
    (by simp [cycM]) (fun j hj => ⟨rfl, rfl⟩)
  rw [h]
  simp [cycM, dueList]

/-- The configuration-token head: a dollar sign followed by P. -/
def tokP : List Char := '$' :: ['P']

/-- A template without placeholder tokens: it contains neither the opcode
token, nor the head of a configuration token, nor the value token. -/
def noTokens (s : List Char) : Bool :=
  !containsTok tokC s && !containsTok tokP s && !containsTok tokV s

/-- A pattern that occurs nowhere in a string is never replaced. -/
lemma strReplaceAux_eq_self (pat rep : List Char) :
    ∀ s : List Char, containsTok pat s = false → strReplaceAux pat rep s 0 = s := by
  intro s
  induction s with
  | nil => intro _; rfl
  | cons c rest ih =>
    intro h
    have h' : pat.isPrefixOf (c :: rest) = false ∧ containsTok pat rest = false := by
      simpa [containsTok] using h
    simp [strReplaceAux, h'.1, ih h'.2]

/-- A configuration token can only match where its two-character head is a
prefix. -/
lemma matchPTokenAt_eq_none (s : List Char) (h : tokP.isPrefixOf s = false) :
    matchPTokenAt s = none := by
  match s with
  | [] => rfl
  | [a] => rfl
  | [a, b] => rfl
  | a :: b :: c :: rest =>
    by_cases ha : a = '$'
    · by_cases hb : b = 'P'
      · exfalso
        subst ha
        subst hb
        simp [tokP, List.isPrefixOf] at h
      · simp [matchPTokenAt, hb]
    · simp [matchPTokenAt, ha]

/-- If the configuration-token head occurs nowhere, the loop condition of
`_parse_str` is false. -/
lemma hasPMatch_eq_false (s : List Char) (h : containsTok tokP s = false) :
    hasPMatch s = false := by
  induction s with
  | nil => rfl
  | cons c rest ih =>
    have h' : tokP.isPrefixOf (c :: rest) = false ∧ containsTok tokP rest = false := by
      simpa [containsTok] using h
    simp [hasPMatch, matchPTokenAt_eq_none _ h'.1, ih h'.2]

/-- Whether a configuration token occurs anywhere in the string. -/
def hasPTokenAnywhere : List Char → Bool
  | [] => false
  | c :: rest => (matchPTokenAt (c :: rest)).isSome || hasPTokenAnywhere rest

/-- Whether the string is free of newline characters (the one character the
dot of the loop's anchored regex cannot cross). -/
def noNewline (s : List Char) : Bool := s.all (fun c => c != '\n')

/-- On newline-free strings the loop condition coincides with a token
occurring anywhere. -/
lemma hasPMatch_eq_anywhere (s : List Char) (h : noNewline s = true) :
    hasPMatch s = hasPTokenAnywhere s := by
  induction s with
  | nil => rfl
  | cons c rest ih =>
    have h' : (c != '\n') = true ∧ noNewline rest = true := by
      simpa [noNewline] using h
    simp [hasPMatch, hasPTokenAnywhere, h'.1, ih h'.2]

/-- The substitution loop exits at once when its condition is false. -/
lemma parsePLoop_no_match (pp : PluginParams) (fuel : Nat) (s : List Char)
    (h : hasPMatch s = false) : parsePLoop pp fuel s = some s := by
  cases fuel <;> simp [parsePLoop, h]

/-- Whenever the substitution loop returns, its condition has become false:
the passes were repeated until no token match remained. -/
lemma parsePLoop_done (pp : PluginParams) :
    ∀ (fuel : Nat) (s r : List Char), parsePLoop pp fuel s = some r → hasPMatch r = false := by
  intro fuel
  induction fuel with
  | zero =>
    intro s r h
    by_cases hm : hasPMatch s = true
    · simp [parsePLoop, hm] at h
    · simp [parsePLoop, Bool.not_eq_true _ ▸ hm] at h
      subst h
      exact Bool.not_eq_true _ ▸ hm
  | succ n ih =>
    intro s r h
    by_cases hm : hasPMatch s = true
    · exact ih (subPTokens pp s) r (by simpa [parsePLoop, hm] using h)
    · have hm' : hasPMatch s = false := Bool.not_eq_true _ ▸ hm
      simp [parsePLoop, hm'] at h
      subst h
      exact hm'

/-- C9: rendering a template that contains no placeholder token returns it
unchanged, whatever the value, opcode and plugin-configuration inputs; and
the configuration-substitution pass is repeated until no token match
remains — whenever the loop returns, its match condition is false, so
substitution values that introduced further configuration tokens have been
resolved as well; on a newline-free result this means no configuration
token remains anywhere (the anchored regex of the loop condition cannot see
past a newline, so that is the precise sense of no token remaining). -/
theorem C9_rendering_idempotent_and_exhaustive (pp : PluginParams) (opcode : List Char)
    (fuel : Nat) (tmpl : List Char) (data : Option PyVal) :
    (noTokens tmpl = true → MD_Command_Str.parse_str pp opcode fuel tmpl data = some tmpl)
    ∧ (∀ s r : List Char, parsePLoop pp fuel s = some r →
        hasPMatch r = false
        ∧ (noNewline r = true → hasPTokenAnywhere r = false)) := by
  constructor
  · intro h
    have h3 : (containsTok tokC tmpl = false ∧ containsTok tokP tmpl = false)
        ∧ containsTok tokV tmpl = false := by
      simpa [noTokens] using h
    unfold MD_Command_Str.parse_str
    have e1 : strReplace tokC opcode tmpl = tmpl := strReplaceAux_eq_self _ _ _ h3.1.1
    rw [e1, parsePLoop_no_match pp fuel tmpl (hasPMatch_eq_false tmpl h3.1.2)]
    cases data with
    | none => rfl
    | some v =>
      have e2 : strReplace tokV (pyStr v) tmpl = tmpl := strReplaceAux_eq_self _ _ _ h3.2
      simp [e2]
  · intro s r h
    have hdone := parsePLoop_done pp fuel s r h
    exact ⟨hdone, fun hnl => (hasPMatch_eq_anywhere r hnl) ▸ hdone⟩

/-- Plugin configuration for the C9 witness: parameter a expands to a string
that itself holds a configuration token for parameter b. -/
def nestedPP : PluginParams :=
  [("a".toList, PyVal.vstr ("$P:b:!".toList)), ("b".toList, PyVal.vstr ("y".toList))]

/-- C9 witness: the theorem applied at a token-free template, and the loop
clause applied to a substitution chain where the first substitution value
introduces a further configuration token, which the repeated pass resolves. -/
theorem C9_witness :
    noTokens ("abc".toList) = true
    ∧ MD_Command_Str.parse_str nestedPP ("OP".toList) 5 ("abc".toList) (some (PyVal.vint 3))
        = some ("abc".toList)
    ∧ parsePLoop nestedPP 5 ("$P:a:".toList) = some ("y!".toList)
    ∧ hasPMatch ("y!".toList) = false
    ∧ hasPTokenAnywhere ("y!".toList) = false :=
  ⟨by decide,
   (C9_rendering_idempotent_and_exhaustive nestedPP ("OP".toList) 5 ("abc".toList)
      (some (PyVal.vint 3))).1 (by decide),
   by decide,
   ((C9_rendering_idempotent_and_exhaustive nestedPP ("OP".toList) 5 ("abc".toList)
      (some (PyVal.vint 3))).2 ("$P:a:".toList) ("y!".toList) (by decide)).1,
   ((C9_rendering_idempotent_and_exhaustive nestedPP ("OP".toList) 5 ("abc".toList)
      (some (PyVal.vint 3))).2 ("$P:a:".toList) ("y!".toList) (by decide)).2 (by decide)⟩

/-- C10 witness: the theorem applied to a freshly constructed device state. -/
theorem C10_witness :
    MD_Device.set_runtime_data (DevRuntime.mk [] [] [] none false false false)
        (RTKwargs.mk (some ["r"]) (some [("A", CycEntry.mk 10 0)]) (some ["i"]) none)
      = DevRuntime.mk ["r"] [("A", CycEntry.mk 10 0)] ["i"] none false false false
    ∧ (MD_Device.start
          (MD_Device.set_runtime_data (DevRuntime.mk [] [] [] none false false false)
            (RTKwargs.mk (some ["r"]) (some [("A", CycEntry.mk 10 0)]) (some ["i"]) none))
          demoConn).1.alive = false :=
  C10_set_runtime_data_not_atomic (DevRuntime.mk [] [] [] none false false false)
    demoConn ["r"] [("A", CycEntry.mk 10 0)] ["i"] rfl rfl
